import Mathlib

/-!
Verification development for the household census backend (an Express/pg
service). The submission endpoint `POST /submit-form` validates a payload of
one household location plus a list of family members, then persists them in a
single store transaction; several read endpoints compute aggregations. The
definitions below are a shallow embedding of `src/index.js`: JavaScript string
fields become `Option String` (with `none` for an absent property), JavaScript
falsiness on those fields becomes `truthy`, the store transaction becomes an
explicit committed `Store` plus an event trace, and store-level failures are
driven by an explicit oracle so that every error path of the handler is
reachable in the model.
-/

namespace Census

/-- One SQL parameter value as passed to the store driver. `nullv` models the
SQL NULL that the pg driver produces both for an explicit `null` and for an
absent (`undefined`) property. -/
inductive SqlValue where
  | nullv : SqlValue
  | intv : Nat → SqlValue
  | strv : String → SqlValue
deriving DecidableEq

/-- A raw family-member record from the request body. Every recognized field
of the JSON object is an `Option String`, `none` meaning the property was
absent. Unrecognized extra properties are ignored by the handler and are
therefore not modelled. -/
structure RawMember where
  name : Option String := none
  phone : Option String := none
  birthDate : Option String := none
  gender : Option String := none
  serveInChurch : Option String := none
  maritalStatus : Option String := none
  community : Option String := none
  jobType : Option String := none
  hasDisability : Option String := none
  educationLevel : Option String := none
  schoolName : Option String := none
  studyType : Option String := none
  studyYear : Option String := none
  disabilityType : Option String := none
  otherDisability : Option String := none
deriving DecidableEq

/-- JavaScript truthiness restricted to the string-valued fields of the
request: an absent property and the empty string are falsy, every other
string is truthy. -/
def truthy : Option String → Bool
  | none => false
  | some s => !(s == "")

/-- The per-member required-field check of the handler:
`!member.name || !member.birthDate || !member.gender` negated. -/
def memberOk (m : RawMember) : Bool :=
  truthy m.name && truthy m.birthDate && truthy m.gender

/-- The `value || null` coalescing applied to each of the six optional member
fields at the insertion call site: a falsy value becomes the explicit null. -/
def orNull (v : Option String) : Option String :=
  if truthy v then v else none

/-- Conversion of a request field to the SQL parameter the driver sends:
an absent property becomes SQL NULL, a string is passed through. -/
def optSql : Option String → SqlValue
  | none => SqlValue.nullv
  | some s => SqlValue.strv s

/-- The sixteen-element parameter list `memberValues` built for each family
member insert, in the column order of `memberInsertQuery`: household_id, name,
phone, birthdate, gender, serveinchurch, maritalstatus, community, jobtype,
hasdisability, then the six optional columns with `|| null` normalization. -/
def memberValues (householdId : Nat) (m : RawMember) : List SqlValue :=
  [ SqlValue.intv householdId,
    optSql m.name,
    optSql m.phone,
    optSql m.birthDate,
    optSql m.gender,
    optSql m.serveInChurch,
    optSql m.maritalStatus,
    optSql m.community,
    optSql m.jobType,
    optSql m.hasDisability,
    optSql (orNull m.educationLevel),
    optSql (orNull m.schoolName),
    optSql (orNull m.studyType),
    optSql (orNull m.studyYear),
    optSql (orNull m.disabilityType),
    optSql (orNull m.otherDisability) ]

/-- A nonempty all-digit character list, the `\d+` piece of the location
pattern. -/
def digits1 (l : List Char) : Bool :=
  !(l.isEmpty) && l.all Char.isDigit

/-- Matcher for one unsigned component `\d+(\.\d+)?` of the location regex:
either all digits, or digits, a dot, and digits. -/
def matchesUnsigned (l : List Char) : Bool :=
  match l.splitOn '.' with
  | [a] => digits1 a
  | [a, b] => digits1 a && digits1 b
  | _ => false

/-- Matcher for one signed component `-?\d+(\.\d+)?` of the location regex. -/
def matchesSigned (l : List Char) : Bool :=
  match l with
  | '-' :: rest => matchesUnsigned rest
  | _ => matchesUnsigned l

/-- The anchored location regex of the handler,
`^-?\d+(\.\d+)?,-?\d+(\.\d+)?$`: exactly two signed decimal numbers separated
by one comma, no surrounding whitespace. Since neither component may contain
a comma, a match is exactly a split into two matching components. -/
def locRegex (s : String) : Bool :=
  match s.toList.splitOn ',' with
  | [a, b] => matchesSigned a && matchesSigned b
  | _ => false

/-- Numeric value of an all-digit character list. -/
def digitsToNat (l : List Char) : Nat :=
  l.foldl (fun a c => 10 * a + (c.toNat - 48)) 0

/-- Exact numeric value of an unsigned decimal component, modelling
`parseFloat` on a string of shape `\d+(\.\d+)?`. -/
def parseUnsigned (l : List Char) : ℚ :=
  match l.splitOn '.' with
  | [a] => (digitsToNat a : ℚ)
  | [a, b] => (digitsToNat a : ℚ) + (digitsToNat b : ℚ) / ((10 : ℚ) ^ b.length)
  | _ => 0

/-- Exact numeric value of a signed decimal component, modelling `parseFloat`
on a string of shape `-?\d+(\.\d+)?`. -/
def parseDec (l : List Char) : ℚ :=
  match l with
  | '-' :: rest => - parseUnsigned rest
  | _ => parseUnsigned l

/-- One committed row of the `Households` table, as created by the submission
endpoint. -/
structure HouseholdRow where
  household_id : Nat
  latitude : ℚ
  longitude : ℚ
deriving DecidableEq

/-- The committed state of the store: `Households` rows and `FamilyMembers`
rows (each member row is its sixteen-value parameter list). Transaction-local
uncommitted writes are not part of a `Store`; they become visible only at
COMMIT and are discarded by ROLLBACK. -/
structure Store where
  households : List HouseholdRow
  familyMembers : List (List SqlValue)
deriving DecidableEq

/-- The empty store. -/
def emptyStore : Store := ⟨[], []⟩

/-- Store queries issued by the submission handler, in issue order. An insert
event records that the query was issued, whether or not the store then
reported an error for it. -/
inductive Event where
  | beginTx : Event
  | insertHousehold : ℚ → ℚ → Event
  | insertMember : Nat → List SqlValue → Event
  | commitTx : Event
  | rollbackTx : Event
deriving DecidableEq

/-- Whether an event is a family-member insert. -/
def isMemberInsert : Event → Bool
  | Event.insertMember _ _ => true
  | _ => false

/-- Whether an event is the household insert. -/
def isHouseholdInsert : Event → Bool
  | Event.insertHousehold _ _ => true
  | _ => false

/-- Outcome of the household insert as decided by the store: the query can
raise, succeed without yielding a usable generated identifier (the defensive
`if (!householdId) throw` case), or succeed with an identifier. -/
inductive HouseholdInsertOutcome where
  | raises : HouseholdInsertOutcome
  | noId : HouseholdInsertOutcome
  | ok : Nat → HouseholdInsertOutcome
deriving DecidableEq

/-- Oracle fixing the behaviour of the store for one request: the outcome of
the household insert and, for each member index, whether that member insert
raises a store-level error. -/
structure StoreOracle where
  householdInsert : HouseholdInsertOutcome
  memberInsertFails : Nat → Bool

/-- A store oracle under which every query succeeds and the generated
household identifier is 1. -/
def okOracle : StoreOracle := ⟨HouseholdInsertOutcome.ok 1, fun _ => false⟩

/-- The body of `POST /submit-form`: the location string and the member list,
each possibly absent. A non-array `familyMembers` value is modelled as
absent, since the handler rejects both identically. -/
structure SubmitRequest where
  householdLocation : Option String
  familyMembers : Option (List RawMember)

/-- The observable outcome of one `POST /submit-form` request: HTTP status,
the message or error-detail string of the JSON body, the committed store
afterwards, the trace of store queries issued, and how many times the pooled
client was released. -/
structure SubmitResult where
  status : Nat
  body : String
  store : Store
  events : List Event
  releases : Nat
deriving DecidableEq

/-- The 400 body for a missing or non-matching `householdLocation`. -/
def locationErrorMsg : String :=
  "Missing or invalid householdLocation. Expected format: \"latitude,longitude\""

/-- The 400 body for a missing, non-array or empty `familyMembers`. -/
def membersErrorMsg : String :=
  "Missing or empty familyMembers array."

/-- The message of the error thrown when a member fails the required-field
check. -/
def incompleteMemberMsg : String :=
  "A family member is missing required fields (name, birthDate, gender)."

/-- The message of the error thrown when the household insert yields no
identifier. -/
def noIdMsg : String :=
  "Failed to create a new household record."

/-- Detail string used for a store-level query error. -/
def storeErrorMsg : String := "store error"

/-- The member-insert loop of the handler. For each member in order it first
runs the required-field check (throwing `incompleteMemberMsg` on failure,
before any query for that member is issued), then issues the insert; a
store-raised insert error also aborts the loop. Returns either the error
message of the thrown error or the accumulated transaction-local member rows,
together with the extended event trace. -/
def insertLoop (o : StoreOracle) (hid : Nat) :
    List RawMember → Nat → List (List SqlValue) → List Event →
    Except String (List (List SqlValue)) × List Event
  | [], _, acc, evs => (Except.ok acc, evs)
  | m :: rest, i, acc, evs =>
    if memberOk m then
      let evs1 := evs ++ [Event.insertMember i (memberValues hid m)]
      if o.memberInsertFails i then
        (Except.error storeErrorMsg, evs1)
      else
        insertLoop o hid rest (i + 1) (acc ++ [memberValues hid m]) evs1
    else
      (Except.error incompleteMemberMsg, evs)

/-- The latitude passed to the household insert:
`parseFloat` of the first component of `householdLocation.split(',')`. -/
def locLat (loc : String) : ℚ :=
  parseDec ((loc.toList.splitOn ',').getD 0 [])

/-- The longitude passed to the household insert:
`parseFloat` of the second component of `householdLocation.split(',')`. -/
def locLon (loc : String) : ℚ :=
  parseDec ((loc.toList.splitOn ',').getD 1 [])

/-- The queries issued before the member loop starts: BEGIN and the household
insert carrying the parsed coordinates. -/
def startEvents (loc : String) : List Event :=
  [Event.beginTx, Event.insertHousehold (locLat loc) (locLon loc)]

/-- The `POST /submit-form` handler. Validation of the location and of the
member-list shape happens before the pool client is acquired; the per-member
required-field check happens inside the transaction, after the household
insert. Any error thrown inside the try block leads to ROLLBACK and a 500
response; the client is released exactly once on every path that acquired
it. -/
def submitForm (o : StoreOracle) (st : Store) (req : SubmitRequest) : SubmitResult :=
  match req.householdLocation with
  | none => ⟨400, locationErrorMsg, st, [], 0⟩
  | some loc =>
    if locRegex loc then
      match req.familyMembers with
      | none => ⟨400, membersErrorMsg, st, [], 0⟩
      | some [] => ⟨400, membersErrorMsg, st, [], 0⟩
      | some members =>
        match o.householdInsert with
        | HouseholdInsertOutcome.raises =>
          ⟨500, storeErrorMsg, st, startEvents loc ++ [Event.rollbackTx], 1⟩
        | HouseholdInsertOutcome.noId =>
          ⟨500, noIdMsg, st, startEvents loc ++ [Event.rollbackTx], 1⟩
        | HouseholdInsertOutcome.ok hid =>
          match insertLoop o hid members 0 [] (startEvents loc) with
          | (Except.error msg, evs) =>
            ⟨500, msg, st, evs ++ [Event.rollbackTx], 1⟩
          | (Except.ok rows, evs) =>
            ⟨201, "Household and members registered successfully.",
              ⟨st.households ++ [⟨hid, locLat loc, locLon loc⟩], st.familyMembers ++ rows⟩,
              evs ++ [Event.commitTx], 1⟩
    else ⟨400, locationErrorMsg, st, [], 0⟩

/-- One row of the grouped tithe query
`SELECT tithe_status, COUNT(*) FROM Households GROUP BY tithe_status`:
a tithe status (NULL possible) and its count. -/
structure TitheRow where
  tithe_status : Option String
  count : Nat
deriving DecidableEq

/-- The grouped tithe query evaluated on a list of household tithe statuses:
one row per distinct status, in order of first appearance, with its
multiplicity. On an empty store this returns no rows. -/
def titheGroups (hs : List (Option String)) : List TitheRow :=
  (hs.foldl (fun acc s => if s ∈ acc then acc else acc ++ [s]) []).map
    (fun s => ⟨s, hs.countP (fun t => t == s)⟩)

/-- The response computation of `GET /api/tithe-data`: map each grouped row to
a named entry (paid to Paid, pending to Pending, anything else to Other), then
answer with the first Paid entry and the first Pending entry, each defaulting
to a zero count when its group is missing. -/
def titheData (rows : List TitheRow) : List (String × Nat) :=
  let data := rows.map (fun row =>
    ((if row.tithe_status == some "paid" then "Paid"
      else if row.tithe_status == some "pending" then "Pending"
      else "Other"), row.count))
  let paid := (data.find? (fun d => d.1 == "Paid")).getD ("Paid", 0)
  let pending := (data.find? (fun d => d.1 == "Pending")).getD ("Pending", 0)
  [paid, pending]

/-- One member row as read by the dashboard-charts endpoint: the stored gender
string and the age in whole years computed by the store at query time. -/
structure ChartMember where
  gender : String
  age : Int
deriving DecidableEq

/-- The age-group function `calculateAgeGroup` of the dashboard-charts
endpoint, an if-chain over the computed age. -/
def calculateAgeGroup (age : Int) : String :=
  if age < 13 then "children"
  else if age ≤ 25 then "youth"
  else if age ≤ 60 then "adults"
  else "seniors"

/-- Uppercasing of the first character,
`name.charAt(0).toUpperCase() + name.slice(1)`. -/
def capitalizeFirst (s : String) : String :=
  match s.toList with
  | [] => s
  | c :: rest => String.mk (Char.toUpper c :: rest)

/-- The display name of the age bucket a member of the given age is counted
under. -/
def bucketName (a : Int) : String :=
  capitalizeFirst (calculateAgeGroup a)

/-- The four age-bucket display names, in the insertion order of
`ageStatsMap`. -/
def ageNames : List String := ["Children", "Youth", "Adults", "Seniors"]

/-- The number of members counted for the male entry of `genderData`: gender
exactly the Amharic male value. -/
def maleCount (ms : List ChartMember) : Nat :=
  (ms.filter (fun m => m.gender == "ወንድ")).length

/-- The number of members counted for the female entry of `genderData`: gender
exactly the Amharic female value. -/
def femaleCount (ms : List ChartMember) : Nat :=
  (ms.filter (fun m => m.gender == "ሴት")).length

/-- The `genderData` array of the dashboard-charts response. -/
def genderData (ms : List ChartMember) : List (String × Nat) :=
  [("ወንድ", maleCount ms), ("ሴት", femaleCount ms)]

/-- The `ageData` array of the dashboard-charts response: for each of the four
bucket names, the number of members whose computed age falls in that
bucket. -/
def ageData (ms : List ChartMember) : List (String × Nat) :=
  ageNames.map (fun n => (n, ms.countP (fun m => bucketName m.age == n)))

/-- Total of the four age-bucket counts. -/
def ageTotal (ms : List ChartMember) : Nat :=
  ((ageData ms).map Prod.snd).sum

/-- Status and release count of one request against a read endpoint, as a
function of whether its store query raises. -/
structure ReadResult where
  status : Nat
  releases : Nat
deriving DecidableEq

/-- `GET /households`: the client is released after the query inside the try
block, so a raising query reaches the catch handler with the client never
released. -/
def getHouseholds (queryFails : Bool) : ReadResult :=
  if queryFails then ⟨500, 0⟩ else ⟨200, 1⟩

/-- `GET /family-members`: same shape as `GET /households`, release inside the
try block only. -/
def getFamilyMembers (queryFails : Bool) : ReadResult :=
  if queryFails then ⟨500, 0⟩ else ⟨200, 1⟩

/-- `GET /api/kpis`: release in a finally block, once on every path. -/
def getKpis (queryFails : Bool) : ReadResult :=
  if queryFails then ⟨500, 1⟩ else ⟨200, 1⟩

/-- `GET /api/tithe-data`: the client is released inside the try block after
the query AND in the finally block, so a successful request releases it
twice; a raising query skips the in-try release and releases once in
finally. -/
def getTitheEndpoint (queryFails : Bool) : ReadResult :=
  if queryFails then ⟨500, 1⟩ else ⟨200, 2⟩

/-- `GET /api/dashboard-charts-data`: release in a finally block, once on
every path. -/
def getDashboardCharts (queryFails : Bool) : ReadResult :=
  if queryFails then ⟨500, 1⟩ else ⟨200, 1⟩

/-! ### Concrete fixtures used by witnesses and counterexamples -/

/-- A member record passing the required-field check, with every optional
field absent. -/
def abelMember : RawMember :=
  { name := some "Abel", birthDate := some "1990-01-01", gender := some "ወንድ" }

/-- A member record missing `gender`, so it fails the required-field check. -/
def noGenderMember : RawMember :=
  { name := some "Sara", birthDate := some "1992-05-05" }

/-- A store oracle whose household insert succeeds but yields no generated
identifier. -/
def noIdOracle : StoreOracle := ⟨HouseholdInsertOutcome.noId, fun _ => false⟩

/-- A member with an explicit empty string in one optional field and every
other optional field absent. -/
def emptyOptMember : RawMember :=
  { name := some "Abel", birthDate := some "1990-01-01", gender := some "ወንድ",
    educationLevel := some "" }

end Census

namespace Census

/-! ### Helper lemmas about the member-insert loop -/

/-- The loop only appends to the event trace it is given. -/
lemma insertLoop_events_grow (o : StoreOracle) (hid : Nat) :
    ∀ (ms : List RawMember) (i : Nat) (acc : List (List SqlValue)) (evs : List Event),
      ∃ tail, (insertLoop o hid ms i acc evs).2 = evs ++ tail := by
  intro ms
  induction ms with
  | nil => intro i acc evs; exact ⟨[], by simp [insertLoop]⟩
  | cons m rest ih =>
    intro i acc evs
    by_cases hok : memberOk m
    · by_cases hf : o.memberInsertFails i
      · exact ⟨[Event.insertMember i (memberValues hid m)], by simp [insertLoop, hok, hf]⟩
      · obtain ⟨t, ht⟩ := ih (i + 1) (acc ++ [memberValues hid m])
          (evs ++ [Event.insertMember i (memberValues hid m)])
        refine ⟨Event.insertMember i (memberValues hid m) :: t, ?_⟩
        simp [insertLoop, hok, hf, ht]
    · exact ⟨[], by simp [insertLoop, hok]⟩

/-- If some member of the list fails the required-field check, or its insert
raises, the loop ends in an error. -/
lemma insertLoop_err (o : StoreOracle) (hid : Nat) :
    ∀ (ms : List RawMember) (start : Nat) (acc : List (List SqlValue)) (evs : List Event)
      (i : Nat) (m : RawMember),
      ms.get? i = some m →
      (memberOk m = false ∨ o.memberInsertFails (start + i) = true) →
      ∃ msg evs2, insertLoop o hid ms start acc evs = (Except.error msg, evs2) := by
  intro ms
  induction ms with
  | nil => intro start acc evs i m hget; simp at hget
  | cons m0 rest ih =>
    intro start acc evs i m hget hbad
    by_cases hok : memberOk m0
    · by_cases hf : o.memberInsertFails start
      · exact ⟨storeErrorMsg, evs ++ [Event.insertMember start (memberValues hid m0)],
          by simp [insertLoop, hok, hf]⟩
      · cases i with
        | zero =>
          have hm : m0 = m := by simpa using hget
          subst hm
          rcases hbad with h | h
          · exact absurd h (by simp [hok])
          · rw [Nat.add_zero] at h
            exact absurd h hf
        | succ k =>
          simp only [List.get?_cons_succ] at hget
          obtain ⟨msg, evs2, heq⟩ := ih (start + 1) (acc ++ [memberValues hid m0])
            (evs ++ [Event.insertMember start (memberValues hid m0)]) k m hget
            (by rcases hbad with h | h
                · exact Or.inl h
                · refine Or.inr ?_
                  have he : start + 1 + k = start + (k + 1) := by omega
                  rw [he]
                  exact h)
          exact ⟨msg, evs2, by simp [insertLoop, hok, hf, heq]⟩
    · exact ⟨incompleteMemberMsg, evs, by simp [insertLoop, hok]⟩

/-- When no member insert raises and the first member failing the
required-field check sits at position `i`, the loop stops with the
incomplete-member error having issued exactly `i` member inserts. -/
lemma insertLoop_first_invalid (o : StoreOracle) (hid : Nat)
    (hnofail : ∀ j, o.memberInsertFails j = false) :
    ∀ (ms : List RawMember) (start : Nat) (acc : List (List SqlValue)) (evs : List Event)
      (i : Nat) (m : RawMember),
      ms.get? i = some m → memberOk m = false →
      (∀ j mj, j < i → ms.get? j = some mj → memberOk mj = true) →
      ∃ evs2, insertLoop o hid ms start acc evs = (Except.error incompleteMemberMsg, evs2) ∧
        evs2.countP isMemberInsert = evs.countP isMemberInsert + i := by
  intro ms
  induction ms with
  | nil => intro start acc evs i m hget; simp at hget
  | cons m0 rest ih =>
    intro start acc evs i m hget hbad hfirst
    cases i with
    | zero =>
      simp at hget
      subst hget
      exact ⟨evs, by simp [insertLoop, hbad], by simp⟩
    | succ k =>
      have hok0 : memberOk m0 = true := hfirst 0 m0 (Nat.succ_pos k) rfl
      simp only [List.get?_cons_succ] at hget
      obtain ⟨evs2, heq, hcount⟩ := ih (start + 1) (acc ++ [memberValues hid m0])
        (evs ++ [Event.insertMember start (memberValues hid m0)]) k m hget hbad
        (fun j mj hj hg => hfirst (j + 1) mj (Nat.succ_lt_succ hj) (by simpa using hg))
      refine ⟨evs2, by simp [insertLoop, hok0, hnofail start, heq], ?_⟩
      rw [hcount]
      simp [List.countP_append, isMemberInsert]
      omega

end Census

namespace Census

/-- Claim C1: when the household insert succeeds but a later member insert or
a member required-field validation raises inside the transaction, the handler
rolls the transaction back (the ROLLBACK query is issued before the response)
and answers 500, so the committed store afterwards holds neither the new
household row nor any member row of the submission, and the client is
released once. -/
theorem submit_member_failure_rolls_back (o : StoreOracle) (st : Store) (loc : String)
    (members : List RawMember) (hid : Nat)
    (hloc : locRegex loc = true)
    (hh : o.householdInsert = HouseholdInsertOutcome.ok hid)
    (hfail : ∃ i m, members.get? i = some m ∧
      (memberOk m = false ∨ o.memberInsertFails i = true)) :
    (submitForm o st ⟨some loc, some members⟩).status = 500 ∧
    (submitForm o st ⟨some loc, some members⟩).store = st ∧
    Event.rollbackTx ∈ (submitForm o st ⟨some loc, some members⟩).events ∧
    (submitForm o st ⟨some loc, some members⟩).releases = 1 := by
  obtain ⟨i, m, hget, hbad⟩ := hfail
  cases members with
  | nil => simp at hget
  | cons m0 rest =>
    have hbad0 : memberOk m = false ∨ o.memberInsertFails (0 + i) = true := by
      simpa using hbad
    obtain ⟨msg, evs2, heq⟩ := insertLoop_err o hid (m0 :: rest) 0 []
      (startEvents loc) i m hget hbad0
    simp [submitForm, hloc, hh, heq]

/-- Witness for C1: a concrete submission with a valid location, one valid
member and one member missing `gender`, against a store whose queries all
succeed, ends in 500 with an issued ROLLBACK, an unchanged empty store, and
one client release. -/
theorem submit_member_failure_rolls_back_inst :
    (submitForm okOracle emptyStore
      ⟨some "9.03,38.74", some [abelMember, noGenderMember]⟩).status = 500 ∧
    (submitForm okOracle emptyStore
      ⟨some "9.03,38.74", some [abelMember, noGenderMember]⟩).store = emptyStore ∧
    Event.rollbackTx ∈ (submitForm okOracle emptyStore
      ⟨some "9.03,38.74", some [abelMember, noGenderMember]⟩).events ∧
    (submitForm okOracle emptyStore
      ⟨some "9.03,38.74", some [abelMember, noGenderMember]⟩).releases = 1 :=
  submit_member_failure_rolls_back okOracle emptyStore "9.03,38.74"
    [abelMember, noGenderMember] 1 (by decide) rfl
    ⟨1, noGenderMember, rfl, Or.inl (by decide)⟩

end Census

namespace Census

/-- Counterexample to claim C2: in the concrete submission below the single
member never passes validation (it has no `gender`), yet the handler has
already issued the household insert inside the transaction before detecting
this, so the store is transiently written before every member has passed
validation; the request then ends in 500. -/
theorem submit_writes_before_member_validation :
    memberOk noGenderMember = false ∧
    ((submitForm okOracle emptyStore
      ⟨some "9.03,38.74", some [noGenderMember]⟩).events.any isHouseholdInsert) = true ∧
    (submitForm okOracle emptyStore
      ⟨some "9.03,38.74", some [noGenderMember]⟩).status = 500 := by
  decide

/-- Claim C2 as amended: the location check and the member-list shape check
are detected before any store query is issued (empty event trace, store
unchanged, 400); a member failing the required-field check is detected only
inside the transaction, after the household insert, but still prevents any
commit: the request does not answer 201 and the committed store is
unchanged. -/
theorem submit_validation_mutation_boundary (o : StoreOracle) (st : Store) (loc : String)
    (ms : Option (List RawMember)) (members : List RawMember) :
    ((submitForm o st ⟨none, ms⟩).status = 400 ∧
      (submitForm o st ⟨none, ms⟩).events = [] ∧
      (submitForm o st ⟨none, ms⟩).store = st) ∧
    (locRegex loc = false →
      (submitForm o st ⟨some loc, ms⟩).status = 400 ∧
      (submitForm o st ⟨some loc, ms⟩).events = [] ∧
      (submitForm o st ⟨some loc, ms⟩).store = st) ∧
    ((submitForm o st ⟨some loc, none⟩).status = 400 ∧
      (submitForm o st ⟨some loc, none⟩).events = [] ∧
      (submitForm o st ⟨some loc, none⟩).store = st) ∧
    ((submitForm o st ⟨some loc, some []⟩).status = 400 ∧
      (submitForm o st ⟨some loc, some []⟩).events = [] ∧
      (submitForm o st ⟨some loc, some []⟩).store = st) ∧
    ((∃ i m, members.get? i = some m ∧ memberOk m = false) →
      (submitForm o st ⟨some loc, some members⟩).status ≠ 201 ∧
      (submitForm o st ⟨some loc, some members⟩).store = st) := by
  refine ⟨by simp [submitForm], fun h => by simp [submitForm, h], ?_, ?_, ?_⟩
  · by_cases h : locRegex loc <;> simp [submitForm, h]
  · by_cases h : locRegex loc <;> simp [submitForm, h]
  · rintro ⟨i, m, hget, hbad⟩
    by_cases hl : locRegex loc
    · cases members with
      | nil => simp at hget
      | cons m0 rest =>
        cases hh : o.householdInsert with
        | raises => simp [submitForm, hl, hh]
        | noId => simp [submitForm, hl, hh]
        | ok hid =>
          have hbad0 : memberOk m = false ∨ o.memberInsertFails (0 + i) = true :=
            Or.inl hbad
          obtain ⟨msg, evs2, heq⟩ := insertLoop_err o hid (m0 :: rest) 0 []
            (startEvents loc) i m hget hbad0
          simp [submitForm, hl, hh, heq]
    · simp [submitForm, hl]

/-- Witness for the amended C2: concrete instantiations discharging each
hypothesis — a non-matching location string is rejected with no store query,
and a submission whose only member lacks `gender` never commits. -/
theorem submit_validation_mutation_boundary_inst :
    ((submitForm okOracle emptyStore ⟨some "abc", some [abelMember]⟩).status = 400 ∧
      (submitForm okOracle emptyStore ⟨some "abc", some [abelMember]⟩).events = [] ∧
      (submitForm okOracle emptyStore ⟨some "abc", some [abelMember]⟩).store = emptyStore) ∧
    ((submitForm okOracle emptyStore
        ⟨some "9.03,38.74", some [noGenderMember]⟩).status ≠ 201 ∧
      (submitForm okOracle emptyStore
        ⟨some "9.03,38.74", some [noGenderMember]⟩).store = emptyStore) :=
  ⟨(submit_validation_mutation_boundary okOracle emptyStore "abc"
      (some [abelMember]) [noGenderMember]).2.1 (by decide),
    (submit_validation_mutation_boundary okOracle emptyStore "9.03,38.74"
      (some [abelMember]) [noGenderMember]).2.2.2.2
      ⟨0, noGenderMember, rfl, by decide⟩⟩

/-- Claim C9: when the household insert completes but the store yields no
generated identifier, the handler rolls the transaction back, answers 500
with the household-creation failure message, leaves the committed store
unchanged, and releases the client once. -/
theorem household_no_id_rolls_back (o : StoreOracle) (st : Store) (loc : String)
    (m0 : RawMember) (rest : List RawMember)
    (hloc : locRegex loc = true)
    (hh : o.householdInsert = HouseholdInsertOutcome.noId) :
    (submitForm o st ⟨some loc, some (m0 :: rest)⟩).status = 500 ∧
    (submitForm o st ⟨some loc, some (m0 :: rest)⟩).body = noIdMsg ∧
    (submitForm o st ⟨some loc, some (m0 :: rest)⟩).store = st ∧
    Event.rollbackTx ∈ (submitForm o st ⟨some loc, some (m0 :: rest)⟩).events ∧
    (submitForm o st ⟨some loc, some (m0 :: rest)⟩).releases = 1 := by
  simp [submitForm, hloc, hh, startEvents]

/-- Witness for C9: a concrete valid submission against a store that inserts
the household but yields no identifier ends in 500 with the
household-creation failure detail, an unchanged store, a ROLLBACK, and one
release. -/
theorem household_no_id_rolls_back_inst :
    (submitForm noIdOracle emptyStore ⟨some "9.03,38.74", some [abelMember]⟩).status = 500 ∧
    (submitForm noIdOracle emptyStore ⟨some "9.03,38.74", some [abelMember]⟩).body = noIdMsg ∧
    (submitForm noIdOracle emptyStore ⟨some "9.03,38.74", some [abelMember]⟩).store = emptyStore ∧
    Event.rollbackTx ∈
      (submitForm noIdOracle emptyStore ⟨some "9.03,38.74", some [abelMember]⟩).events ∧
    (submitForm noIdOracle emptyStore ⟨some "9.03,38.74", some [abelMember]⟩).releases = 1 :=
  household_no_id_rolls_back noIdOracle emptyStore "9.03,38.74" abelMember []
    (by decide) rfl

end Census

namespace Census

/-- Counterexample to claim C3: a submission whose second member lacks
`gender` is rejected with HTTP 500, not 400, and the error detail is the
fixed message of the thrown error, which does not identify the index of the
failing record. -/
theorem incomplete_member_gets_500_not_400 :
    (submitForm okOracle emptyStore
      ⟨some "9.03,38.74", some [abelMember, noGenderMember]⟩).status ≠ 400 ∧
    (submitForm okOracle emptyStore
      ⟨some "9.03,38.74", some [abelMember, noGenderMember]⟩).body = incompleteMemberMsg := by
  decide

/-- Claim C3 as amended: a member sequence whose first record missing
`name`, `birthDate` or `gender` sits at index `i` makes the whole submission
fail with HTTP 500 and the fixed incomplete-member message (no index in the
error); members are checked in their given order, fail-fast: exactly the `i`
members before the first invalid one have had their insert issued, the
transaction is rolled back and the committed store is unchanged. -/
theorem submit_fail_fast_first_invalid (o : StoreOracle) (st : Store) (loc : String)
    (members : List RawMember) (hid : Nat) (i : Nat) (m : RawMember)
    (hloc : locRegex loc = true)
    (hh : o.householdInsert = HouseholdInsertOutcome.ok hid)
    (hnofail : ∀ j, o.memberInsertFails j = false)
    (hget : members.get? i = some m)
    (hbad : memberOk m = false)
    (hfirst : ∀ j mj, j < i → members.get? j = some mj → memberOk mj = true) :
    (submitForm o st ⟨some loc, some members⟩).status = 500 ∧
    (submitForm o st ⟨some loc, some members⟩).body = incompleteMemberMsg ∧
    (submitForm o st ⟨some loc, some members⟩).store = st ∧
    (submitForm o st ⟨some loc, some members⟩).events.countP isMemberInsert = i ∧
    Event.rollbackTx ∈ (submitForm o st ⟨some loc, some members⟩).events := by
  cases members with
  | nil => simp at hget
  | cons m0 rest =>
    obtain ⟨evs2, heq, hcount⟩ := insertLoop_first_invalid o hid hnofail (m0 :: rest) 0 []
      (startEvents loc) i m hget hbad hfirst
    have hstart : (startEvents loc).countP isMemberInsert = 0 := by
      simp [startEvents, isMemberInsert]
    refine ⟨?_, ?_, ?_, ?_, ?_⟩ <;>
      simp [submitForm, hloc, hh, heq, List.countP_append, hcount, hstart, isMemberInsert]

/-- Witness for the amended C3: in the concrete submission with a valid first
member and a second member missing `gender`, the request ends in 500 with the
fixed message, exactly one member insert was issued (the first member, in
order), and the store is unchanged after rollback. -/
theorem submit_fail_fast_first_invalid_inst :
    (submitForm okOracle emptyStore
      ⟨some "9.03,38.74", some [abelMember, noGenderMember]⟩).body = incompleteMemberMsg ∧
    (submitForm okOracle emptyStore
      ⟨some "9.03,38.74", some [abelMember, noGenderMember]⟩).store = emptyStore ∧
    (submitForm okOracle emptyStore
      ⟨some "9.03,38.74", some [abelMember, noGenderMember]⟩).events.countP isMemberInsert = 1 := by
  have h := submit_fail_fast_first_invalid okOracle emptyStore "9.03,38.74"
    [abelMember, noGenderMember] 1 1 noGenderMember (by decide) rfl (fun _ => rfl) rfl
    (by decide)
    (by
      intro j mj hj hg
      have hj0 : j = 0 := Nat.lt_one_iff.mp hj
      subst hj0
      have : abelMember = mj := by simpa using hg
      subst this
      decide)
  exact ⟨h.2.1, h.2.2.1, h.2.2.2.1⟩

end Census

namespace Census

/-- Claim C4: a `householdLocation` matching the pattern (optional minus,
digits, optional dot plus digits, comma, same again, nothing else) splits on
the comma into exactly two matching components, the submission proceeds past
validation (status is not 400) and the household insert is issued with
latitude and longitude numerically equal to the parsed components; a missing
or non-matching location string is rejected with 400, with no store query
issued and the store untouched. -/
theorem location_parse_spec (o : StoreOracle) (st : Store) (loc : String)
    (m0 : RawMember) (rest : List RawMember) :
    (locRegex loc = true →
      ∃ a b tail, loc.toList.splitOn ',' = [a, b] ∧
        matchesSigned a = true ∧ matchesSigned b = true ∧
        (submitForm o st ⟨some loc, some (m0 :: rest)⟩).status ≠ 400 ∧
        (submitForm o st ⟨some loc, some (m0 :: rest)⟩).events =
          Event.beginTx :: Event.insertHousehold (parseDec a) (parseDec b) :: tail) ∧
    (locRegex loc = false →
      submitForm o st ⟨some loc, some (m0 :: rest)⟩ =
        ⟨400, locationErrorMsg, st, [], 0⟩) ∧
    submitForm o st ⟨none, some (m0 :: rest)⟩ = ⟨400, locationErrorMsg, st, [], 0⟩ := by
  refine ⟨?_, fun h => by simp [submitForm, h], by simp [submitForm]⟩
  intro hl
  rcases hsp : loc.toList.splitOn ',' with _ | ⟨a, rest2⟩
  · simp only [locRegex, hsp] at hl; cases hl
  · rcases rest2 with _ | ⟨b, rest3⟩
    · simp only [locRegex, hsp] at hl; cases hl
    · rcases rest3 with _ | ⟨c, rest4⟩
      · simp only [locRegex, hsp, Bool.and_eq_true] at hl
        obtain ⟨hma, hmb⟩ := hl
        have hsp2 : List.splitOn ',' loc.data = [a, b] := hsp
        have hl2 : locRegex loc = true := by
          simp [locRegex, hsp, hsp2, hma, hmb]
        have hse : startEvents loc =
            [Event.beginTx, Event.insertHousehold (parseDec a) (parseDec b)] := by
          simp [startEvents, locLat, locLon, hsp, hsp2]
        cases hh : o.householdInsert with
        | raises =>
          have hstep : submitForm o st ⟨some loc, some (m0 :: rest)⟩ =
              ⟨500, storeErrorMsg, st, startEvents loc ++ [Event.rollbackTx], 1⟩ := by
            simp [submitForm, hl2, hh]
          refine ⟨a, b, [Event.rollbackTx], rfl, hma, hmb, ?_, ?_⟩
          · rw [hstep]; simp
          · rw [hstep, hse]; rfl
        | noId =>
          have hstep : submitForm o st ⟨some loc, some (m0 :: rest)⟩ =
              ⟨500, noIdMsg, st, startEvents loc ++ [Event.rollbackTx], 1⟩ := by
            simp [submitForm, hl2, hh]
          refine ⟨a, b, [Event.rollbackTx], rfl, hma, hmb, ?_, ?_⟩
          · rw [hstep]; simp
          · rw [hstep, hse]; rfl
        | ok hid =>
          obtain ⟨t, ht⟩ := insertLoop_events_grow o hid (m0 :: rest) 0 [] (startEvents loc)
          rcases hres : insertLoop o hid (m0 :: rest) 0 [] (startEvents loc) with ⟨res, evs⟩
          rw [hres] at ht
          have hevs : evs = startEvents loc ++ t := ht
          cases res with
          | error msg =>
            have hstep : submitForm o st ⟨some loc, some (m0 :: rest)⟩ =
                ⟨500, msg, st, evs ++ [Event.rollbackTx], 1⟩ := by
              simp [submitForm, hl2, hh, hres]
            refine ⟨a, b, t ++ [Event.rollbackTx], rfl, hma, hmb, ?_, ?_⟩
            · rw [hstep]; simp
            · rw [hstep]
              show evs ++ [Event.rollbackTx] = _
              rw [hevs, hse]
              simp
          | ok rows =>
            have hstep : submitForm o st ⟨some loc, some (m0 :: rest)⟩ =
                ⟨201, "Household and members registered successfully.",
                  ⟨st.households ++ [⟨hid, locLat loc, locLon loc⟩],
                    st.familyMembers ++ rows⟩, evs ++ [Event.commitTx], 1⟩ := by
              simp [submitForm, hl2, hh, hres]
            refine ⟨a, b, t ++ [Event.commitTx], rfl, hma, hmb, ?_, ?_⟩
            · rw [hstep]; simp
            · rw [hstep]
              show evs ++ [Event.commitTx] = _
              rw [hevs, hse]
              simp
      · simp only [locRegex, hsp] at hl; cases hl

/-- Witness for C4: the valid location string splits into two matching
components whose parsed values are passed to the household insert, and the
non-matching string is rejected with 400 and no store query. -/
theorem location_parse_spec_inst :
    (∃ a b tail, "9.03,38.74".toList.splitOn ',' = [a, b] ∧
      matchesSigned a = true ∧ matchesSigned b = true ∧
      (submitForm okOracle emptyStore ⟨some "9.03,38.74", some [abelMember]⟩).status ≠ 400 ∧
      (submitForm okOracle emptyStore ⟨some "9.03,38.74", some [abelMember]⟩).events =
        Event.beginTx :: Event.insertHousehold (parseDec a) (parseDec b) :: tail) ∧
    submitForm okOracle emptyStore ⟨some "abc", some [abelMember]⟩ =
      ⟨400, locationErrorMsg, emptyStore, [], 0⟩ :=
  ⟨(location_parse_spec okOracle emptyStore "9.03,38.74" abelMember []).1 (by decide),
    (location_parse_spec okOracle emptyStore "abc" abelMember []).2.1 (by decide)⟩

end Census

namespace Census

/-- Claim C5: the parameter list built for every member insert has exactly
sixteen entries (no column is ever omitted), and each of the six optional
fields that is missing or falsy — the empty string included — is normalized
to the explicit SQL NULL at its column position. -/
theorem member_values_normalization (hid : Nat) (m : RawMember) :
    (memberValues hid m).length = 16 ∧
    (truthy m.educationLevel = false → (memberValues hid m)[10]? = some SqlValue.nullv) ∧
    (truthy m.schoolName = false → (memberValues hid m)[11]? = some SqlValue.nullv) ∧
    (truthy m.studyType = false → (memberValues hid m)[12]? = some SqlValue.nullv) ∧
    (truthy m.studyYear = false → (memberValues hid m)[13]? = some SqlValue.nullv) ∧
    (truthy m.disabilityType = false → (memberValues hid m)[14]? = some SqlValue.nullv) ∧
    (truthy m.otherDisability = false → (memberValues hid m)[15]? = some SqlValue.nullv) := by
  refine ⟨rfl, ?_, ?_, ?_, ?_, ?_, ?_⟩ <;>
    intro h <;> simp [memberValues, orNull, h, optSql]

/-- Witness for C5: for the concrete member above each of the six optional
columns of the insert parameter list is the explicit NULL, and the list has
sixteen entries. -/
theorem member_values_normalization_inst :
    (memberValues 3 emptyOptMember).length = 16 ∧
    (memberValues 3 emptyOptMember)[10]? = some SqlValue.nullv ∧
    (memberValues 3 emptyOptMember)[11]? = some SqlValue.nullv ∧
    (memberValues 3 emptyOptMember)[12]? = some SqlValue.nullv ∧
    (memberValues 3 emptyOptMember)[13]? = some SqlValue.nullv ∧
    (memberValues 3 emptyOptMember)[14]? = some SqlValue.nullv ∧
    (memberValues 3 emptyOptMember)[15]? = some SqlValue.nullv :=
  ⟨(member_values_normalization 3 emptyOptMember).1,
    (member_values_normalization 3 emptyOptMember).2.1 (by decide),
    (member_values_normalization 3 emptyOptMember).2.2.1 (by decide),
    (member_values_normalization 3 emptyOptMember).2.2.2.1 (by decide),
    (member_values_normalization 3 emptyOptMember).2.2.2.2.1 (by decide),
    (member_values_normalization 3 emptyOptMember).2.2.2.2.2.1 (by decide),
    (member_values_normalization 3 emptyOptMember).2.2.2.2.2.2 (by decide)⟩

/-- Claim C6 fails on the code; this theorem evaluates the models of the
handlers at the failing inputs: `GET /households` (and `GET /family-members`)
with a raising store query never releases the checked-out client, and
`GET /api/tithe-data` with a succeeding query releases it twice (once inside
the try block, once in finally); the other endpoints release exactly once on
both paths. -/
theorem session_release_counts :
    (getHouseholds true).releases = 0 ∧ (getHouseholds true).status = 500 ∧
    (getFamilyMembers true).releases = 0 ∧
    (getTitheEndpoint false).releases = 2 ∧ (getTitheEndpoint false).status = 200 ∧
    (getTitheEndpoint true).releases = 1 ∧
    (getHouseholds false).releases = 1 ∧ (getFamilyMembers false).releases = 1 ∧
    (∀ q, (getKpis q).releases = 1) ∧
    (∀ q, (getDashboardCharts q).releases = 1) := by
  decide

/-- The first entry whose name matches, with the zero-count default: its name
is always the requested one. -/
lemma find_fst_getD (data : List (String × Nat)) (nm : String) :
    ((data.find? (fun d => d.1 == nm)).getD (nm, 0)).1 = nm := by
  cases hf : data.find? (fun d => d.1 == nm) with
  | none => rfl
  | some d =>
    have hd := List.find?_some hf
    simp only [Option.getD_some]
    simpa using hd

/-- Claim C7: for every grouped-query result the tithe-data response has
exactly two entries, named Paid then Pending; on a store with zero households
the grouped query is empty and both entries default to count 0. -/
theorem tithe_breakdown_shape :
    (∀ rows : List TitheRow,
      (titheData rows).length = 2 ∧
      (titheData rows).map Prod.fst = ["Paid", "Pending"]) ∧
    titheData (titheGroups []) = [("Paid", 0), ("Pending", 0)] := by
  refine ⟨?_, by decide⟩
  intro rows
  refine ⟨rfl, ?_⟩
  simp only [titheData, List.map_cons, List.map_nil]
  rw [find_fst_getD, find_fst_getD]

/-- Claim C8: the age-group function maps age 12 to the under-13 bucket,
ages 13 and 25 to the 13-25 bucket, age 26 to the 26-60 bucket and age 61 to
the over-60 bucket, and it is exhaustive: every age lands in one of the four
fixed buckets. -/
theorem age_bracket_boundaries :
    calculateAgeGroup 12 = "children" ∧ calculateAgeGroup 13 = "youth" ∧
    calculateAgeGroup 25 = "youth" ∧ calculateAgeGroup 26 = "adults" ∧
    calculateAgeGroup 61 = "seniors" ∧
    ∀ a : Int, calculateAgeGroup a = "children" ∨ calculateAgeGroup a = "youth" ∨
      calculateAgeGroup a = "adults" ∨ calculateAgeGroup a = "seniors" := by
  refine ⟨by decide, by decide, by decide, by decide, by decide, ?_⟩
  intro a
  unfold calculateAgeGroup
  split
  · exact Or.inl rfl
  · split
    · exact Or.inr (Or.inl rfl)
    · split
      · exact Or.inr (Or.inr (Or.inl rfl))
      · exact Or.inr (Or.inr (Or.inr rfl))

end Census

namespace Census

/-- Every age falls in exactly one of the four capitalized bucket names. -/
lemma bucketName_one (a : Int) :
    ((if bucketName a == "Children" then 1 else 0) : Nat) +
      (if bucketName a == "Youth" then 1 else 0) +
      (if bucketName a == "Adults" then 1 else 0) +
      (if bucketName a == "Seniors" then 1 else 0) = 1 := by
  unfold bucketName calculateAgeGroup
  split
  · decide
  · split
    · decide
    · split
      · decide
      · decide

/-- The age-bucket total equals the sum of the four per-bucket counts. -/
lemma ageTotal_eq_sum (ms : List ChartMember) :
    ageTotal ms =
      ms.countP (fun m => bucketName m.age == "Children") +
      ms.countP (fun m => bucketName m.age == "Youth") +
      ms.countP (fun m => bucketName m.age == "Adults") +
      ms.countP (fun m => bucketName m.age == "Seniors") := by
  simp [ageTotal, ageData, ageNames]
  omega

/-- The male gender count as a predicate count. -/
lemma maleCount_eq (l : List ChartMember) :
    maleCount l = l.countP (fun m => m.gender == "ወንድ") := by
  simp [maleCount, List.countP_eq_length_filter]

/-- The female gender count as a predicate count. -/
lemma femaleCount_eq (l : List ChartMember) :
    femaleCount l = l.countP (fun m => m.gender == "ሴት") := by
  simp [femaleCount, List.countP_eq_length_filter]

/-- Claim C10: the dashboard gender entries count only members whose gender
is exactly the male or exactly the female Amharic value, while every member
is counted in exactly one age bucket; hence a member with any other gender
value contributes to the age total but to neither gender bucket, and the two
gender values need not sum to the member count (concrete instance at the
end). -/
theorem gender_breakdown_exact_match :
    (∀ ms : List ChartMember, ageTotal ms = ms.length) ∧
    (∀ ms : List ChartMember,
      maleCount ms + femaleCount ms =
        ms.countP (fun m => m.gender == "ወንድ" || m.gender == "ሴት")) ∧
    genderData [⟨"ሌላ", 30⟩] = [("ወንድ", 0), ("ሴት", 0)] ∧
    ageTotal [⟨"ሌላ", 30⟩] = 1 := by
  refine ⟨?_, ?_, by decide, by decide⟩
  · intro ms
    rw [ageTotal_eq_sum]
    induction ms with
    | nil => simp
    | cons m t ih =>
      simp only [List.countP_cons, List.length_cons]
      have h1 := bucketName_one m.age
      omega
  · intro ms
    rw [maleCount_eq, femaleCount_eq]
    induction ms with
    | nil => simp
    | cons m t ih =>
      simp only [List.countP_cons]
      by_cases h1 : m.gender = "ወንድ"
      · by_cases h2 : m.gender = "ሴት"
        · rw [h1] at h2
          exact absurd h2 (by decide)
        · simp [h1, h2]
          omega
      · by_cases h2 : m.gender = "ሴት"
        · simp [h1, h2]
          omega
        · simp [h1, h2]
          omega

end Census

